import Mathlib

/-!
Shallow embedding of the tu-nerr discovery engine (Python sources) in Lean 4.

The persisted store (Supabase tables `artists` and `tracks`) is modelled as
explicit lists of records; numeric columns are modelled over `ℚ` (the Python
floats are IEEE doubles, but every arithmetic fact below is exact, so the
rational model is faithful up to floating-point tolerance).  The external
HTTP providers (Deezer catalog, Last.fm tags/similarity, AudioDB mood) are
modelled as oracle functions bundled in an `Env` record; all repository-side
logic (duplicate checks, upsert, aggregation, normalization, crawl loops)
is translated from the Python source line by line.
-/

namespace TuNerr

/-- A row of the `artists` table (db_model.py / Supabase schema).
`avg_*` columns are nullable: they are only ever written by
`synthesize_scores`, hence `Option ℚ`. -/
structure ArtistRec where
  id : ℕ
  name : String
  genre : String
  listeners : ℤ
  image_url : String
  first_release_year : ℤ
  valence : ℚ
  tag_energy : ℚ
  avg_bpm : Option ℚ
  avg_brightness : Option ℚ
  avg_noisiness : Option ℚ
  avg_warmth : Option ℚ
  avg_complexity : Option ℚ
deriving DecidableEq, Repr, Inhabited

/-- A row of the `tracks` table (db_model.py `add_track` payload). -/
structure TrackRec where
  artist_id : ℕ
  title : String
  preview_url : String
  bpm : ℚ
  brightness : ℚ
  noisiness : ℚ
  warmth : ℚ
  complexity : ℚ
deriving DecidableEq, Repr, Inhabited

/-- The persisted store: both tables plus the id sequence. -/
structure Store where
  artists : List ArtistRec
  tracks : List TrackRec
  nextId : ℕ
deriving DecidableEq, Repr, Inhabited

/-- The dict passed to `add_artist` (keys "Artist", "Genre", ...). -/
structure ArtistData where
  artist : String
  genre : String
  listeners : ℤ
  image_url : String
  first_release_year : ℤ
  valence : ℚ
  tag_energy : ℚ
deriving DecidableEq, Repr, Inhabited

/-- `supabase.table("artists").select("id").eq("name", nm)` — exact (case
sensitive) string equality, first matching row. -/
def findArtistByName (s : Store) (nm : String) : Option ArtistRec :=
  s.artists.find? (fun a => a.name == nm)

/-- The row built from `add_artist`'s insert payload: the `avg_*` columns
are absent from the payload, hence NULL. -/
def freshArtistRec (s : Store) (d : ArtistData) : ArtistRec :=
  { id := s.nextId, name := d.artist, genre := d.genre,
    listeners := d.listeners, image_url := d.image_url,
    first_release_year := d.first_release_year,
    valence := d.valence, tag_energy := d.tag_energy,
    avg_bpm := none, avg_brightness := none, avg_noisiness := none,
    avg_warmth := none, avg_complexity := none }

/-- db_model.py `add_artist`: if a row with exactly this name exists, update
only `first_release_year`, `listeners`, `image_url`, `tag_energy`, `valence`
on that row (keyed by its primary key); otherwise insert a fresh row (the
`avg_*` columns are absent from the insert payload, hence NULL). -/
def add_artist (s : Store) (d : ArtistData) : Store × ℕ :=
  match findArtistByName s d.artist with
  | some a =>
      ({ s with artists := s.artists.map (fun b =>
          if b.id = a.id then
            { b with first_release_year := d.first_release_year,
                     listeners := d.listeners,
                     image_url := d.image_url,
                     tag_energy := d.tag_energy,
                     valence := d.valence }
          else b) }, a.id)
  | none =>
      ({ s with
          artists := s.artists ++ [freshArtistRec s d],
          nextId := s.nextId + 1 }, s.nextId)

/-- db_model.py `add_track`: plain insert into `tracks`. -/
def add_track (s : Store) (t : TrackRec) : Store :=
  { s with tracks := s.tracks ++ [t] }

/-- `select("*").eq("artist_id", id)` on the `tracks` table. -/
def tracksOf (s : Store) (aid : ℕ) : List TrackRec :=
  s.tracks.filter (fun t => t.artist_id == aid)

/-- pandas `df[col].mean()` — arithmetic mean. -/
def qMean (xs : List ℚ) : ℚ := xs.sum / (xs.length : ℚ)

/-- db_model.py `synthesize_scores`: fetch the artist's tracks; if there are
none, return immediately (no write); otherwise overwrite the five `avg_*`
columns of that artist with the per-column means. -/
def synthesize_scores (s : Store) (aid : ℕ) : Store :=
  if tracksOf s aid = [] then s
  else
    { s with artists := s.artists.map (fun a =>
        if a.id = aid then
          { a with
              avg_bpm := some (qMean ((tracksOf s aid).map (·.bpm))),
              avg_brightness := some (qMean ((tracksOf s aid).map (·.brightness))),
              avg_noisiness := some (qMean ((tracksOf s aid).map (·.noisiness))),
              avg_warmth := some (qMean ((tracksOf s aid).map (·.warmth))),
              avg_complexity := some (qMean ((tracksOf s aid).map (·.complexity))) }
        else a) }

/-! ### String helpers modelling the Python string idioms.
All of them are structural recursions over the character list (the
artist names at issue are ASCII), so that concrete runs reduce inside
the kernel. -/

/-- ASCII lower-casing of a character (Python `str.lower` on ASCII). -/
def charLower (c : Char) : Char :=
  if 'A' ≤ c ∧ c ≤ 'Z' then Char.ofNat (c.toNat + 32) else c

/-- ASCII upper-casing of a character. -/
def charUpper (c : Char) : Char :=
  if 'a' ≤ c ∧ c ≤ 'z' then Char.ofNat (c.toNat - 32) else c

/-- Python `s.lower()` (ASCII model). -/
def pyLower (s : String) : String := ⟨s.data.map charLower⟩

/-- Is this character blank space (the whitespace Python `strip` removes)? -/
def isBlankChar (c : Char) : Bool :=
  c = ' ' ∨ c = '\t' ∨ c = '\n' ∨ c = '\r'

/-- Python `s.strip()`. -/
def pyStrip (s : String) : String :=
  ⟨((s.data.dropWhile isBlankChar).reverse.dropWhile isBlankChar).reverse⟩

/-- Python `name.strip().lower()`. -/
def normName (n : String) : String := pyLower (pyStrip n)

/-- Substring test on character lists: does `n` occur inside the list? -/
def hasSubAux (n : List Char) : List Char → Bool
  | [] => n.isEmpty
  | c :: rest => n.isPrefixOf (c :: rest) || hasSubAux n rest

/-- Python `k in t` for strings (substring containment). -/
def strHasSub (needle hay : String) : Bool :=
  hasSubAux needle.toList hay.toList

/-- Word-capitalizing helper for `pyTitle`. -/
def titleAux : Bool → List Char → List Char
  | _, [] => []
  | atStart, c :: cs =>
      if c = ' ' then c :: titleAux true cs
      else (if atStart then charUpper c else c) :: titleAux false cs

/-- Model of Python `str.title()` (word capitalization; no claim inspects
genre strings beyond equality with itself). -/
def pyTitle (s : String) : String := ⟨titleAux true s.data⟩

/-! ### Metadata resolver (api_handler.py) -/

/-- The `ENERGY_SCORES` lookup table of `get_lastfm_tags`. -/
def ENERGY_SCORES : List (String × ℚ) :=
  [("death", 1), ("metal", 9/10), ("punk", 9/10), ("rock", 7/10), ("pop", 6/10)]

/-- `hits = [v for k,v in d.items() for t in tags if k in t]`. -/
def scoreHits (table : List (String × ℚ)) (tags : List String) : List ℚ :=
  (table.map (fun kv => (tags.filter (fun t => strHasSub kv.1 t)).map (fun _ => kv.2))).flatten

/-- `score(d)` inside `get_lastfm_tags`: mean of the hits, or the neutral
0.5 default when nothing matched. -/
def scoreTable (table : List (String × ℚ)) (tags : List String) : ℚ :=
  let hits := scoreHits table tags
  if hits = [] then 1/2 else hits.sum / (hits.length : ℚ)

/-- First catalog match returned by the Deezer search (external black box). -/
structure DeezerInfo where
  name : String
  id : ℕ
  listeners : ℤ
  image : String
deriving DecidableEq, Repr, Inhabited

/-- One entry of `get_top_tracks_previews` (title + non-empty preview URL). -/
structure TrackPrev where
  title : String
  preview : String
deriving DecidableEq, Repr, Inhabited

/-- The five raw-normalized physics values returned by `analyze_audio`. -/
structure Phys where
  bpm : ℤ
  brightness : ℚ
  noisiness : ℚ
  warmth : ℚ
  complexity : ℚ
deriving DecidableEq, Repr, Inhabited

/-- The external HTTP providers, as oracles.  `none` models a failed or
empty response (the Python code maps every transport error to the same
observable outcome as an empty result, via bare `except` blocks). -/
structure Env where
  deezer : String → Option DeezerInfo
  lastfmTags : String → Option (List String)
  mood : String → Option String
  releaseYear : ℕ → ℤ
  topTracks : ℕ → List TrackPrev
  analyze : String → Option Phys

/-- `get_lastfm_tags`: on request failure or API error return `([], 0.5)`;
otherwise lower-case the tags and score them against `ENERGY_SCORES`. -/
def get_lastfm_tags (env : Env) (n : String) : List String × ℚ :=
  match env.lastfmTags n with
  | none => ([], 1/2)
  | some tags =>
      let tl := tags.map pyLower
      (tl, scoreTable ENERGY_SCORES tl)

/-- `get_audiodb_mood`'s pure core: map the (optional) `strMood` string to a
valence proxy; every failure path returns the neutral 0.5. -/
def moodScore (m : Option String) : ℚ :=
  match m with
  | none => 1/2
  | some raw =>
      let r := pyLower raw
      if strHasSub "happy" r || strHasSub "party" r then 4/5
      else if strHasSub "sad" r || strHasSub "melancholy" r then 1/5
      else if strHasSub "aggressive" r || strHasSub "angry" r then 3/10
      else if strHasSub "dark" r || strHasSub "gothic" r then 1/10
      else 1/2

/-- What `process_artist` hands back to the UI: either the cached DB row or
the freshly resolved artist dict (with the `Audio_BPM` / `Audio_Brightness`
entries appended in step 6 of the source). -/
inductive ProcResult where
  | cached (a : ArtistRec)
  | fresh (data : ArtistData) (audioBpm : ℤ) (audioBrightness : ℚ)
deriving DecidableEq, Repr

/-- Result of one `process_artist` call: returned value, updated store,
updated session set. -/
structure ProcOut where
  res : Option ProcResult
  store : Store
  session : List String

/-- The step-4 loop of `process_artist`: analyze each preview, insert a
track row per success.  Note the source builds the track dict with key
`"preview_url"` while `add_track` reads key `'preview'`, so the persisted
preview string is `''`. -/
def commitTracks (env : Env) (aid : ℕ) : List TrackPrev → Store → Store
  | [], s => s
  | t :: ts, s =>
    match env.analyze t.preview with
    | some p => commitTracks env aid ts (add_track s
        ⟨aid, t.title, "", (p.bpm : ℚ), p.brightness, p.noisiness,
         p.warmth, p.complexity⟩)
    | none => commitTracks env aid ts s

/-- The artist dict assembled in step 3 of `process_artist` (genre = first
tag title-cased, valence from the mood provider, year from the
discography scan). -/
def mkArtistData (env : Env) (d : DeezerInfo) (g : String)
    (tagEnergy : ℚ) : ArtistData :=
  ⟨d.name, pyTitle g, d.listeners, d.image, env.releaseYear d.id,
   moodScore (env.mood d.name), tagEnergy⟩

/-- Steps 3-6 of `process_artist`, once the tag list is known non-empty
(`g` is its head): mood + release-year lookups, `add_artist`, the track
analysis loop, conditional `synthesize_scores`, and the step-6 UI dict
whose audio fields reuse the loop variable of the *last* track (falling
back to `(0, tag_energy)` when there were no tracks or the last analysis
failed). -/
def commitArtist (env : Env) (s : Store) (session : List String)
    (d : DeezerInfo) (g : String) (tagEnergy : ℚ) : ProcOut :=
  let data := mkArtistData env d g tagEnergy
  let p1 := add_artist s data
  let aid := p1.2
  let tracks := env.topTracks d.id
  let s2 := commitTracks env aid tracks p1.1
  let analyzed :=
    (tracks.filter (fun t => (env.analyze t.preview).isSome)).length
  let s3 := if 0 < analyzed then synthesize_scores s2 aid else s2
  let last := match tracks.getLast? with
    | none => ((0 : ℤ), tagEnergy)
    | some tlk => match env.analyze tlk.preview with
      | some p => (p.bpm, p.brightness)
      | none => ((0 : ℤ), tagEnergy)
  ⟨some (.fresh data last.1 last.2), s3, session ++ [normName d.name]⟩

/-- api_handler.py `process_artist`, translated clause by clause:
session-set check, dataframe check, Deezer lookup, second session check on
the canonical name, tag lookup (an empty tag list aborts resolution), then
`commitArtist` for the commit phase. -/
def process_artist (env : Env) (s : Store) (df : List ArtistRec)
    (session : List String) (name : String) : ProcOut :=
  if session.contains (normName name) then ⟨none, s, session⟩
  else match df.find? (fun a => pyLower a.name == normName name) with
  | some a => ⟨some (.cached a), s, session⟩
  | none =>
    match env.deezer name with
    | none => ⟨none, s, session⟩
    | some d =>
      if session.contains (normName d.name) then ⟨none, s, session⟩
      else
        match (get_lastfm_tags env d.name).1 with
        | [] => ⟨none, s, session⟩
        | g :: _ =>
            commitArtist env s session d g (get_lastfm_tags env d.name).2

/-! ### Observables used to state the uniqueness claims -/

/-- The list of stored artist display names, in row order. -/
def artistNames (s : Store) : List String := s.artists.map (·.name)

/-- Does this display name case-insensitively match either of the two
lower-cased keys (the queried name and the canonical name)? -/
def pairPred (l1 l2 : String) (nm : String) : Bool :=
  pyLower nm == l1 || pyLower nm == l2

/-- How many stored records case-insensitively match either key. -/
def countPair (s : Store) (l1 l2 : String) : ℕ :=
  (artistNames s).countP (pairPred l1 l2)

/-! ### Concrete environments used as evaluation inputs -/

/-- Catalog hit, tag lookup fails outright (`none` = transport failure or
API error object). -/
def envTagFail : Env where
  deezer := fun _ => some ⟨"Portishead", 7, 1000, "img"⟩
  lastfmTags := fun _ => none
  mood := fun _ => none
  releaseYear := fun _ => 1994
  topTracks := fun _ => []
  analyze := fun _ => none

/-- Catalog hit, tags present (no table hit, so tag-energy is the 0.5
default), no analyzable previews at all. -/
def envNoTracks : Env where
  deezer := fun _ => some ⟨"Portishead", 7, 1000, "img"⟩
  lastfmTags := fun _ => some ["ambient"]
  mood := fun _ => none
  releaseYear := fun _ => 1994
  topTracks := fun _ => []
  analyze := fun _ => none

/-- Catalog hit with a fixed canonical name, tags present, no previews:
used to exercise double resolution. -/
def envUpsert : Env where
  deezer := fun _ => some ⟨"Portishead", 7, 1000, "img"⟩
  lastfmTags := fun _ => some ["ambient"]
  mood := fun _ => some "dark"
  releaseYear := fun _ => 1994
  topTracks := fun _ => []
  analyze := fun _ => none

/-! ### Similarity engine (ai_engine.py `get_ai_neighbors`)

The scikit-learn pipeline is embedded exactly up to the monotone change of
scale: `StandardScaler` divides each centered column by `sqrt(var)` (a
zero-variance column is left unscaled), so the squared Euclidean distance
between two *scaled* rows is `Σ (xⱼ-yⱼ)²/varⱼ` — a rational number, which
is what `scaledDist2` computes (mean-centering cancels in differences).
`kneighbors` returns the `min(k+1, n)` indices ordered by increasing
distance; ties are returned in index order (NumPy's argsort on small
arrays is a stable insertion sort), modelled by the lexicographic
`knnLe`. -/

/-- One row of the dataframe handed to `get_ai_neighbors`: artist name plus
the six feature columns (nullable — `fillna(0)` is applied in
`featVec`). -/
structure KnnRow where
  artist : String
  brightness : Option ℚ
  valence : Option ℚ
  bpm : Option ℚ
  noisiness : Option ℚ
  warmth : Option ℚ
  complexity : Option ℚ
deriving DecidableEq, Repr, Inhabited

/-- `df_calc[[...]].fillna(0).values` — the row's feature vector. -/
def featVec (r : KnnRow) : Fin 6 → ℚ :=
  ![r.brightness.getD 0, r.valence.getD 0, r.bpm.getD 0,
    r.noisiness.getD 0, r.warmth.getD 0, r.complexity.getD 0]

/-- Column mean over the whole dataframe (StandardScaler's `mean_`). -/
def colMean (df : List KnnRow) (j : Fin 6) : ℚ :=
  (df.map (fun r => featVec r j)).sum / (df.length : ℚ)

/-- Column population variance (StandardScaler's `var_`, ddof = 0). -/
def colVar (df : List KnnRow) (j : Fin 6) : ℚ :=
  (df.map (fun r => (featVec r j - colMean df j) ^ 2)).sum / (df.length : ℚ)

/-- The square of StandardScaler's per-column scale (1 for a constant
column, per `_handle_zeros_in_scale`). -/
def scaleDenom (df : List KnnRow) (j : Fin 6) : ℚ :=
  if colVar df j = 0 then 1 else colVar df j

/-- Squared Euclidean distance between two rows after standardization. -/
def scaledDist2 (df : List KnnRow) (a b : KnnRow) : ℚ :=
  ∑ j : Fin 6, (featVec a j - featVec b j) ^ 2 / scaleDenom df j

/-- `df.iloc[i]` (rows are only ever accessed at in-range indices). -/
def rowAt (df : List KnnRow) (i : ℕ) : KnnRow := df.getD i default

/-- The order in which `kneighbors` reports indices: by increasing scaled
distance to the query row, ties by index. -/
def knnLe (df : List KnnRow) (q : KnnRow) (i j : ℕ) : Prop :=
  scaledDist2 df q (rowAt df i) < scaledDist2 df q (rowAt df j) ∨
    (scaledDist2 df q (rowAt df i) = scaledDist2 df q (rowAt df j) ∧ i ≤ j)

instance (df : List KnnRow) (q : KnnRow) : DecidableRel (knnLe df q) :=
  fun _ _ => instDecidableOr

/-- ai_engine.py `get_ai_neighbors`: empty below 5 rows; otherwise fit the
scaler and k-NN index on all rows, locate the first row whose artist
matches exactly (empty result if absent), query the `min(k+1, n)` nearest
rows, drop the first reported index, and return the remaining rows. -/
def get_ai_neighbors (center : String) (df : List KnnRow)
    (k : ℕ := 5) : List KnnRow :=
  if df.length < 5 then []
  else
    match df.findIdx? (fun r => r.artist == center) with
    | none => []
    | some t =>
        let q := rowAt df t
        let sorted := List.insertionSort (knnLe df q) (List.range df.length)
        let picked := sorted.take (min (k + 1) df.length)
        picked.tail.map (rowAt df)

/-- The five-row dataframe used to falsify the self-exclusion claim: rows
0 ("A") and 1 ("B") carry identical feature vectors. -/
def dfDup : List KnnRow :=
  [⟨"A", some 1, some 1, some 120, some 0, some 1, some 0⟩,
   ⟨"B", some 1, some 1, some 120, some 0, some 1, some 0⟩,
   ⟨"C", some 3, some 0, some 80, some 1, some 0, some 1⟩,
   ⟨"D", some 4, some 1, some 200, some 0, some 0, some 0⟩,
   ⟨"E", some 5, some 0, some 60, some 1, some 1, some 1⟩]

/-! ### Discovery crawler (timed_harvester.py)

`run_automated_harvest_scheduler` is embedded with an explicit wall clock:
`now` is the elapsed wall-clock time, advanced by environment-supplied
durations for the initial store fetch, each similar-artists page fetch and
each candidate processing; the scheduler's `time.time() - start_time >
time_limit_seconds` checks become `budget < now`.  Seed/candidate starts
are recorded in a trace with their start times. -/

/-- timed_harvester.py `add_artist`: Supabase
`upsert(payload, on_conflict="name")` — on an exact-name conflict all
payload columns are written; otherwise a fresh row is inserted (the
`avg_*` columns stay NULL). -/
def add_artist_upsert (s : Store) (d : ArtistData) : Store × ℕ :=
  match findArtistByName s d.artist with
  | some a =>
      ({ s with artists := s.artists.map (fun b =>
          if b.id = a.id then
            { b with name := d.artist, genre := d.genre,
                     listeners := d.listeners, image_url := d.image_url,
                     first_release_year := d.first_release_year,
                     valence := d.valence, tag_energy := d.tag_energy }
          else b) }, a.id)
  | none =>
      ({ s with
          artists := s.artists ++ [freshArtistRec s d],
          nextId := s.nextId + 1 }, s.nextId)

/-- The harvester's track loop: unlike the api_handler variant, the track
dict here carries the key `'preview'`, so the preview URL is persisted. -/
def commitTracksH (env : Env) (aid : ℕ) : List TrackPrev → Store → Store
  | [], s => s
  | t :: ts, s =>
    match env.analyze t.preview with
    | some p => commitTracksH env aid ts (add_track s
        ⟨aid, t.title, t.preview, (p.bpm : ℚ), p.brightness, p.noisiness,
         p.warmth, p.complexity⟩)
    | none => commitTracksH env aid ts s

/-- timed_harvester.py `process_artist_and_commit`: Deezer lookup (`None`
on miss), then the **exists-skip which still returns the canonical name**,
then tag lookup (empty tags return `None`), then upsert + track analysis
+ conditional `synthesize_scores`, returning the canonical name. -/
def process_artist_and_commit (env : Env) (s : Store)
    (existing : List String) (name : String) : Option String × Store :=
  match env.deezer name with
  | none => (none, s)
  | some d =>
    if existing.contains (pyLower d.name) then (some d.name, s)
    else
      match (get_lastfm_tags env d.name).1 with
      | [] => (none, s)
      | g :: _ =>
          let p1 := add_artist_upsert s
            (mkArtistData env d g (get_lastfm_tags env d.name).2)
          let tracks := env.topTracks d.id
          let s2 := commitTracksH env p1.2 tracks p1.1
          let analyzed :=
            (tracks.filter (fun t => (env.analyze t.preview).isSome)).length
          let s3 := if 0 < analyzed then synthesize_scores s2 p1.2 else s2
          (some d.name, s3)

/-- The crawler's external world: the resolver oracles plus the
similar-artists pages and the wall-clock durations of the blocking
operations. -/
structure HarvestEnv where
  api : Env
  neighbors : String → ℕ → List String
  initDur : ℕ
  pageDur : String → ℕ → ℕ
  candDur : String → ℕ

/-- A trace event: a seed scan or a candidate processing, stamped with the
elapsed time at which it started; candidate events also carry the
returned canonical name (`none` = resolution failure). -/
inductive HEvent where
  | seed (name : String) (time : ℕ)
  | cand (name : String) (time : ℕ) (result : Option String)
deriving DecidableEq, Repr

/-- The elapsed time at which the event started. -/
def HEvent.start : HEvent → ℕ
  | .seed _ t => t
  | .cand _ t _ => t

/-- Did this event increment the per-seed quota?  (The scheduler counts a
candidate whenever `process_artist_and_commit` returned a name.) -/
def HEvent.counted : HEvent → Bool
  | .seed _ _ => false
  | .cand _ _ r => r.isSome

/-- Scheduler state: store, the in-memory known-artists set, the per-seed
quota counter, the per-seed page counter, the clock, and the trace. -/
structure SchedState where
  store : Store
  existing : List String
  added : ℕ
  pages : ℕ
  now : ℕ
  trace : List HEvent

/-- The `for cand in candidates` loop: time check, quota check, process,
count on a returned name, sleep. -/
def candLoop (henv : HarvestEnv) (budget : ℕ) :
    List String → SchedState → SchedState
  | [], st => st
  | c :: rest, st =>
    if budget < st.now then st
    else if 2 ≤ st.added then st
    else
      let pr := process_artist_and_commit henv.api st.store st.existing c
      candLoop henv budget rest
        { st with
          store := pr.2,
          existing := st.existing ++
            (match pr.1 with | some nm => [pyLower nm] | none => []),
          added := st.added + (if pr.1.isSome then 1 else 0),
          now := st.now + henv.candDur c,
          trace := st.trace ++ [.cand c st.now pr.1] }

/-- The `while added_for_this_seed < 2 and page <= MAX_PAGES` loop; the
fuel argument counts the pages still allowed (3 at seed start). -/
def pageLoop (henv : HarvestEnv) (budget : ℕ) (seed : String) :
    ℕ → ℕ → SchedState → SchedState
  | 0, _, st => st
  | fuel + 1, page, st =>
    if 2 ≤ st.added then st
    else
      let cands := henv.neighbors seed page
      let st1 := { st with
        now := st.now + henv.pageDur seed page,
        pages := st.pages + 1 }
      if cands = [] then st1
      else pageLoop henv budget seed fuel (page + 1)
        (candLoop henv budget cands st1)

/-- The `for seed_artist in source_artists` loop with its leading time
check; the per-seed counters reset at each seed. -/
def seedLoop (henv : HarvestEnv) (budget : ℕ) :
    List String → SchedState → SchedState
  | [], st => st
  | sd :: rest, st =>
    if budget < st.now then st
    else
      seedLoop henv budget rest
        (pageLoop henv budget sd 3 1
          { st with
            added := 0, pages := 0,
            trace := st.trace ++ [.seed sd st.now] })

/-- `run_automated_harvest_scheduler`: fetch the store (consuming
`initDur` of wall clock), derive the lowercased known-name set, and scan
the seed list. -/
def runScheduler (henv : HarvestEnv) (budget : ℕ) (seeds : List String)
    (s0 : Store) : SchedState :=
  seedLoop henv budget seeds
    { store := s0,
      existing := s0.artists.map (fun a => pyLower a.name),
      added := 0, pages := 0,
      now := henv.initDur,
      trace := [] }

/-- Concrete crawl world for the quota claims: seed "Seed" has three
similar artists, of which "KnownA" and "KnownB" are already stored and
"Fresh" is new and resolvable. -/
def envHarvest : HarvestEnv where
  api :=
    { deezer := fun n =>
        if n = "KnownA" then some ⟨"KnownA", 1, 10, "a"⟩
        else if n = "KnownB" then some ⟨"KnownB", 2, 20, "b"⟩
        else if n = "Fresh" then some ⟨"Fresh", 3, 30, "f"⟩
        else none,
      lastfmTags := fun _ => some ["ambient"],
      mood := fun _ => none,
      releaseYear := fun _ => 2000,
      topTracks := fun _ => [],
      analyze := fun _ => none }
  neighbors := fun sd page =>
    if sd = "Seed" ∧ page = 1 then ["KnownA", "KnownB", "Fresh"] else []
  initDur := 1
  pageDur := fun _ _ => 1
  candDur := fun _ => 1

/-- The store already holding the two known artists. -/
def storeKnown : Store :=
  ⟨[{ id := 1, name := "KnownA", genre := "Ambient", listeners := 10,
      image_url := "a", first_release_year := 2000, valence := 1/2,
      tag_energy := 1/2, avg_bpm := none, avg_brightness := none,
      avg_noisiness := none, avg_warmth := none, avg_complexity := none },
    { id := 2, name := "KnownB", genre := "Ambient", listeners := 20,
      image_url := "b", first_release_year := 2000, valence := 1/2,
      tag_energy := 1/2, avg_bpm := none, avg_brightness := none,
      avg_noisiness := none, avg_warmth := none, avg_complexity := none }],
   [], 3⟩

/-! ### Feature extractor normalization (api_handler.py / timed_harvester.py) -/

/-- `BRIGHTNESS_DIVISOR = 3569.1107`. -/
def BRIGHTNESS_DIVISOR : ℚ := 35691107/10000
/-- `NOISINESS_DIVISOR = 0.1771`. -/
def NOISINESS_DIVISOR : ℚ := 1771/10000
/-- `WARMTH_DIVISOR = 7967.8935`. -/
def WARMTH_DIVISOR : ℚ := 79678935/10000
/-- `COMPLEXITY_DIVISOR = 0.3115`. -/
def COMPLEXITY_DIVISOR : ℚ := 3115/10000

/-- `min(raw / DIVISOR, 1.0)` — the normalization step of `analyze_audio`. -/
def normFeature (raw divisor : ℚ) : ℚ := min (raw / divisor) 1

/-- The four normalized feature values computed at the end of
`analyze_audio` from the raw librosa measurements (mean spectral centroid,
mean zero-crossing rate, mean spectral roll-off, mean chroma std). -/
def analyzeNormalize (rawCentroid rawZcr rawRolloff rawChromaStd : ℚ) :
    ℚ × ℚ × ℚ × ℚ :=
  (normFeature rawCentroid BRIGHTNESS_DIVISOR,
   normFeature rawZcr NOISINESS_DIVISOR,
   normFeature rawRolloff WARMTH_DIVISOR,
   normFeature rawChromaStd COMPLEXITY_DIVISOR)

/-- Helper: normalizing a non-negative raw value by a positive divisor
lands in `[0, 1]`. -/
theorem normFeature_mem_Icc {raw divisor : ℚ} (hraw : 0 ≤ raw)
    (hdiv : 0 < divisor) : normFeature raw divisor ∈ Set.Icc (0 : ℚ) 1 := by
  constructor
  · exact le_min (div_nonneg hraw hdiv.le) zero_le_one
  · exact min_le_right _ _

end TuNerr

namespace TuNerr

/-- C6: For every successfully analyzed audio preview, each of the four
normalized feature values stored on the resulting Track (brightness,
noisiness, warmth, complexity) lies in the closed interval [0.0, 1.0].
The raw librosa measurements (spectral-centroid mean, zero-crossing-rate
mean, roll-off mean, chroma standard deviation mean) are means of
non-negative quantities, which is the hypothesis. -/
theorem analyze_audio_features_in_unit_interval
    (rawCentroid rawZcr rawRolloff rawChromaStd : ℚ)
    (h1 : 0 ≤ rawCentroid) (h2 : 0 ≤ rawZcr) (h3 : 0 ≤ rawRolloff)
    (h4 : 0 ≤ rawChromaStd) :
    (analyzeNormalize rawCentroid rawZcr rawRolloff rawChromaStd).1 ∈
        Set.Icc (0 : ℚ) 1 ∧
    (analyzeNormalize rawCentroid rawZcr rawRolloff rawChromaStd).2.1 ∈
        Set.Icc (0 : ℚ) 1 ∧
    (analyzeNormalize rawCentroid rawZcr rawRolloff rawChromaStd).2.2.1 ∈
        Set.Icc (0 : ℚ) 1 ∧
    (analyzeNormalize rawCentroid rawZcr rawRolloff rawChromaStd).2.2.2 ∈
        Set.Icc (0 : ℚ) 1 := by
  refine ⟨normFeature_mem_Icc h1 ?_, normFeature_mem_Icc h2 ?_,
          normFeature_mem_Icc h3 ?_, normFeature_mem_Icc h4 ?_⟩ <;>
    norm_num [BRIGHTNESS_DIVISOR, NOISINESS_DIVISOR, WARMTH_DIVISOR,
      COMPLEXITY_DIVISOR]

/-- Witness for C6 at the concrete raw measurement vector
(1800.5, 0.09, 4000, 0.25). -/
theorem analyze_audio_features_in_unit_interval_witness :
    (0 : ℚ) ≤ 36001/20 ∧ (0 : ℚ) ≤ 9/100 ∧ (0 : ℚ) ≤ 4000 ∧ (0 : ℚ) ≤ 1/4 ∧
    ((analyzeNormalize (36001/20) (9/100) 4000 (1/4)).1 ∈
        Set.Icc (0 : ℚ) 1 ∧
     (analyzeNormalize (36001/20) (9/100) 4000 (1/4)).2.1 ∈
        Set.Icc (0 : ℚ) 1 ∧
     (analyzeNormalize (36001/20) (9/100) 4000 (1/4)).2.2.1 ∈
        Set.Icc (0 : ℚ) 1 ∧
     (analyzeNormalize (36001/20) (9/100) 4000 (1/4)).2.2.2 ∈
        Set.Icc (0 : ℚ) 1) :=
  ⟨by norm_num, by norm_num, by norm_num, by norm_num,
   analyze_audio_features_in_unit_interval (36001/20) (9/100) 4000 (1/4)
     (by norm_num) (by norm_num) (by norm_num) (by norm_num)⟩

/-- C9: Calling `synthesize_scores` for an artist that owns zero Track rows
performs no database write at all: the whole store (hence every field of
that artist's stored record) is unchanged by the call. -/
theorem synthesize_scores_zero_tracks_frame (s : Store) (aid : ℕ)
    (h : tracksOf s aid = []) : synthesize_scores s aid = s := by
  unfold synthesize_scores
  simp [h]

/-- Witness for C9: a store with one artist (id 1) and no tracks. -/
theorem synthesize_scores_zero_tracks_frame_witness :
    tracksOf ⟨[{ id := 1, name := "Radiohead", genre := "Rock",
                 listeners := 100, image_url := "", first_release_year := 1993,
                 valence := 1/2, tag_energy := 7/10, avg_bpm := none,
                 avg_brightness := none, avg_noisiness := none,
                 avg_warmth := none, avg_complexity := none }], [], 2⟩ 1 = []
    ∧ synthesize_scores
        ⟨[{ id := 1, name := "Radiohead", genre := "Rock",
            listeners := 100, image_url := "", first_release_year := 1993,
            valence := 1/2, tag_energy := 7/10, avg_bpm := none,
            avg_brightness := none, avg_noisiness := none,
            avg_warmth := none, avg_complexity := none }], [], 2⟩ 1 =
      ⟨[{ id := 1, name := "Radiohead", genre := "Rock",
          listeners := 100, image_url := "", first_release_year := 1993,
          valence := 1/2, tag_energy := 7/10, avg_bpm := none,
          avg_brightness := none, avg_noisiness := none,
          avg_warmth := none, avg_complexity := none }], [], 2⟩ :=
  ⟨rfl, synthesize_scores_zero_tracks_frame _ 1 rfl⟩

/-- C2: For every artist with at least one stored Track, after
`synthesize_scores` runs, each composite field (`avg_bpm`,
`avg_brightness`, `avg_noisiness`, `avg_warmth`, `avg_complexity`) equals
the arithmetic mean (sum divided by count) of the corresponding field
across all of that artist's Tracks; all other artist rows are untouched.
The rational model makes the means exact, hence "within floating-point
tolerance" holds a fortiori. -/
theorem synthesize_scores_sets_means (s : Store) (aid : ℕ)
    (h : tracksOf s aid ≠ []) :
    List.Forall₂ (fun a a2 =>
      (a.id = aid →
        a2.avg_bpm =
          some (((tracksOf s aid).map (·.bpm)).sum /
            (((tracksOf s aid).length : ℚ))) ∧
        a2.avg_brightness =
          some (((tracksOf s aid).map (·.brightness)).sum /
            (((tracksOf s aid).length : ℚ))) ∧
        a2.avg_noisiness =
          some (((tracksOf s aid).map (·.noisiness)).sum /
            (((tracksOf s aid).length : ℚ))) ∧
        a2.avg_warmth =
          some (((tracksOf s aid).map (·.warmth)).sum /
            (((tracksOf s aid).length : ℚ))) ∧
        a2.avg_complexity =
          some (((tracksOf s aid).map (·.complexity)).sum /
            (((tracksOf s aid).length : ℚ)))) ∧
      (a.id ≠ aid → a2 = a))
      s.artists (synthesize_scores s aid).artists := by
  unfold synthesize_scores
  simp only [if_neg h]
  rw [List.forall₂_map_right_iff, List.forall₂_same]
  intro a _
  by_cases hid : a.id = aid
  · refine ⟨fun _ => ?_, fun hne => absurd hid hne⟩
    simp only [if_pos hid, qMean]
    refine ⟨?_, ?_, ?_, ?_, ?_⟩ <;> simp [List.length_map]
  · exact ⟨fun hh => absurd hh hid, fun _ => by simp [if_neg hid]⟩

/-- Witness for C2: one artist (id 1) with two tracks; the composite BPM
becomes (120 + 100)/2 = 110 and each other composite the corresponding
mean. -/
theorem synthesize_scores_sets_means_witness :
    tracksOf ⟨[{ id := 1, name := "Radiohead", genre := "Rock",
                 listeners := 100, image_url := "", first_release_year := 1993,
                 valence := 1/2, tag_energy := 7/10, avg_bpm := none,
                 avg_brightness := none, avg_noisiness := none,
                 avg_warmth := none, avg_complexity := none }],
              [⟨1, "A", "", 120, 1/2, 1/4, 3/4, 1/5⟩,
               ⟨1, "B", "", 100, 1/4, 1/2, 1/4, 2/5⟩], 2⟩ 1 ≠ [] ∧
    List.Forall₂ (fun a a2 =>
      (a.id = 1 →
        a2.avg_bpm = some 110 ∧ a2.avg_brightness = some (3/8) ∧
        a2.avg_noisiness = some (3/8) ∧ a2.avg_warmth = some (1/2) ∧
        a2.avg_complexity = some (3/10)) ∧
      (a.id ≠ 1 → a2 = a))
      [{ id := 1, name := "Radiohead", genre := "Rock",
         listeners := 100, image_url := "", first_release_year := 1993,
         valence := 1/2, tag_energy := 7/10, avg_bpm := none,
         avg_brightness := none, avg_noisiness := none,
         avg_warmth := none, avg_complexity := none }]
      ((synthesize_scores
        ⟨[{ id := 1, name := "Radiohead", genre := "Rock",
            listeners := 100, image_url := "", first_release_year := 1993,
            valence := 1/2, tag_energy := 7/10, avg_bpm := none,
            avg_brightness := none, avg_noisiness := none,
            avg_warmth := none, avg_complexity := none }],
          [⟨1, "A", "", 120, 1/2, 1/4, 3/4, 1/5⟩,
           ⟨1, "B", "", 100, 1/4, 1/2, 1/4, 2/5⟩], 2⟩ 1).artists) := by
  constructor
  · decide
  · have h := synthesize_scores_sets_means
      ⟨[{ id := 1, name := "Radiohead", genre := "Rock",
          listeners := 100, image_url := "", first_release_year := 1993,
          valence := 1/2, tag_energy := 7/10, avg_bpm := none,
          avg_brightness := none, avg_noisiness := none,
          avg_warmth := none, avg_complexity := none }],
        [⟨1, "A", "", 120, 1/2, 1/4, 3/4, 1/5⟩,
         ⟨1, "B", "", 100, 1/4, 1/2, 1/4, 2/5⟩], 2⟩ 1 (by decide)
    refine h.imp ?_
    intro a a2 hp
    refine ⟨fun hid => ?_, hp.2⟩
    obtain ⟨e1, e2, e3, e4, e5⟩ := hp.1 hid
    refine ⟨?_, ?_, ?_, ?_, ?_⟩ <;>
      simp only [e1, e2, e3, e4, e5] <;> norm_num [tracksOf]

/-- C10: When `add_artist` is called for an artist name that already exists
in the store, it updates only the `first_release_year`, `listeners`,
`image_url`, `tag_energy`, and `valence` fields of the existing record
(matched by primary key); `name`, `genre`, and all composite `avg_*`
fields of every row are left unchanged, no row is inserted, and the tracks
table is untouched. -/
theorem add_artist_existing_updates_frame (s : Store) (d : ArtistData)
    (a : ArtistRec) (h : findArtistByName s d.artist = some a) :
    (add_artist s d).2 = a.id ∧
    (add_artist s d).1.tracks = s.tracks ∧
    (add_artist s d).1.nextId = s.nextId ∧
    List.Forall₂ (fun b b2 =>
      b2.name = b.name ∧ b2.genre = b.genre ∧
      b2.avg_bpm = b.avg_bpm ∧ b2.avg_brightness = b.avg_brightness ∧
      b2.avg_noisiness = b.avg_noisiness ∧ b2.avg_warmth = b.avg_warmth ∧
      b2.avg_complexity = b.avg_complexity ∧
      (b.id = a.id →
        b2.first_release_year = d.first_release_year ∧
        b2.listeners = d.listeners ∧ b2.image_url = d.image_url ∧
        b2.tag_energy = d.tag_energy ∧ b2.valence = d.valence) ∧
      (b.id ≠ a.id → b2 = b)) s.artists (add_artist s d).1.artists := by
  unfold add_artist
  rw [h]
  refine ⟨rfl, rfl, rfl, ?_⟩
  rw [List.forall₂_map_right_iff, List.forall₂_same]
  intro b _
  by_cases hid : b.id = a.id
  · rw [if_pos hid]
    exact ⟨rfl, rfl, rfl, rfl, rfl, rfl, rfl, fun _ => ⟨rfl, rfl, rfl, rfl, rfl⟩,
      fun hne => absurd hid hne⟩
  · rw [if_neg hid]
    exact ⟨rfl, rfl, rfl, rfl, rfl, rfl, rfl, fun hh => absurd hh hid, fun _ => rfl⟩

/-- Witness for C10: updating "Radiohead" (already stored, id 1) with new
listener count / year leaves name, genre and composites alone. -/
theorem add_artist_existing_updates_frame_witness :
    findArtistByName
      ⟨[{ id := 1, name := "Radiohead", genre := "Rock",
          listeners := 100, image_url := "old", first_release_year := 1993,
          valence := 1/2, tag_energy := 7/10, avg_bpm := some 110,
          avg_brightness := some (3/8), avg_noisiness := none,
          avg_warmth := none, avg_complexity := none }], [], 2⟩
      "Radiohead" = some
        { id := 1, name := "Radiohead", genre := "Rock",
          listeners := 100, image_url := "old", first_release_year := 1993,
          valence := 1/2, tag_energy := 7/10, avg_bpm := some 110,
          avg_brightness := some (3/8), avg_noisiness := none,
          avg_warmth := none, avg_complexity := none } ∧
    (add_artist
      ⟨[{ id := 1, name := "Radiohead", genre := "Rock",
          listeners := 100, image_url := "old", first_release_year := 1993,
          valence := 1/2, tag_energy := 7/10, avg_bpm := some 110,
          avg_brightness := some (3/8), avg_noisiness := none,
          avg_warmth := none, avg_complexity := none }], [], 2⟩
      ⟨"Radiohead", "Pop", 999, "new", 1992, 3/10, 9/10⟩).1.artists =
      [{ id := 1, name := "Radiohead", genre := "Rock",
         listeners := 999, image_url := "new", first_release_year := 1992,
         valence := 3/10, tag_energy := 9/10, avg_bpm := some 110,
         avg_brightness := some (3/8), avg_noisiness := none,
         avg_warmth := none, avg_complexity := none }] ∧
    (add_artist
      ⟨[{ id := 1, name := "Radiohead", genre := "Rock",
          listeners := 100, image_url := "old", first_release_year := 1993,
          valence := 1/2, tag_energy := 7/10, avg_bpm := some 110,
          avg_brightness := some (3/8), avg_noisiness := none,
          avg_warmth := none, avg_complexity := none }], [], 2⟩
      ⟨"Radiohead", "Pop", 999, "new", 1992, 3/10, 9/10⟩).2 = 1 ∧
    (add_artist
      ⟨[{ id := 1, name := "Radiohead", genre := "Rock",
          listeners := 100, image_url := "old", first_release_year := 1993,
          valence := 1/2, tag_energy := 7/10, avg_bpm := some 110,
          avg_brightness := some (3/8), avg_noisiness := none,
          avg_warmth := none, avg_complexity := none }], [], 2⟩
      ⟨"Radiohead", "Pop", 999, "new", 1992, 3/10, 9/10⟩).1.nextId = 2 := by
  refine ⟨rfl, rfl, ?_, rfl⟩
  exact (add_artist_existing_updates_frame
    ⟨[{ id := 1, name := "Radiohead", genre := "Rock",
        listeners := 100, image_url := "old", first_release_year := 1993,
        valence := 1/2, tag_energy := 7/10, avg_bpm := some 110,
        avg_brightness := some (3/8), avg_noisiness := none,
        avg_warmth := none, avg_complexity := none }], [], 2⟩
    ⟨"Radiohead", "Pop", 999, "new", 1992, 3/10, 9/10⟩
    { id := 1, name := "Radiohead", genre := "Rock",
      listeners := 100, image_url := "old", first_release_year := 1993,
      valence := 1/2, tag_energy := 7/10, avg_bpm := some 110,
      avg_brightness := some (3/8), avg_noisiness := none,
      avg_warmth := none, avg_complexity := none } rfl).1

/-! ### Helper lemmas about the resolver pipeline -/

/-- The last element of a list is a member. -/
theorem mem_of_getLast?_eq_some {α : Type} {l : List α} {a : α}
    (h : l.getLast? = some a) : a ∈ l := by
  obtain ⟨hne, rfl⟩ :=
    List.mem_getLast?_eq_getLast (l := l) (x := a) (by rw [h]; rfl)
  exact List.getLast_mem hne

/-- `commitTracks` only inserts track rows: the artists table is
untouched. -/
theorem commitTracks_artists (env : Env) (aid : ℕ) (l : List TrackPrev) :
    ∀ s : Store, (commitTracks env aid l s).artists = s.artists := by
  induction l with
  | nil => intro s; rfl
  | cons t ts ih =>
      intro s
      cases h : env.analyze t.preview <;>
        simp only [commitTracks, h, add_track] <;> exact ih _

/-- If every analysis fails, `commitTracks` is the identity. -/
theorem commitTracks_all_fail (env : Env) (aid : ℕ) (l : List TrackPrev) :
    ∀ s : Store, (∀ t ∈ l, env.analyze t.preview = none) →
      commitTracks env aid l s = s := by
  induction l with
  | nil => intro s _; rfl
  | cons t ts ih =>
      intro s h
      have ht := h t (List.mem_cons_self t ts)
      simp only [commitTracks, ht]
      exact ih s fun u hu => h u (List.mem_cons_of_mem _ hu)

/-- `synthesize_scores` never changes the list of stored names. -/
theorem artistNames_synthesize (s : Store) (aid : ℕ) :
    artistNames (synthesize_scores s aid) = artistNames s := by
  unfold synthesize_scores
  split
  · rfl
  · simp only [artistNames, List.map_map]
    apply List.map_congr_left
    intro a _
    by_cases hid : a.id = aid <;> simp [hid]

/-- Updating an existing artist never changes the list of stored names. -/
theorem artistNames_add_artist_some (s : Store) (d : ArtistData)
    (a : ArtistRec) (h : findArtistByName s d.artist = some a) :
    artistNames (add_artist s d).1 = artistNames s := by
  unfold add_artist
  rw [h]
  simp only [artistNames, List.map_map]
  apply List.map_congr_left
  intro b _
  by_cases hid : b.id = a.id <;> simp [hid]

/-- Inserting a new artist appends exactly its display name. -/
theorem artistNames_add_artist_none (s : Store) (d : ArtistData)
    (h : findArtistByName s d.artist = none) :
    artistNames (add_artist s d).1 = artistNames s ++ [d.artist] := by
  unfold add_artist
  rw [h]
  simp [artistNames, freshArtistRec]

/-- The store coming out of `commitArtist` carries the same artist names as
the one coming out of the `add_artist` step (tracks and composite updates
never touch names). -/
theorem artistNames_commitArtist (env : Env) (s : Store)
    (session : List String) (d : DeezerInfo) (g : String) (te : ℚ) :
    artistNames (commitArtist env s session d g te).store =
      artistNames (add_artist s (mkArtistData env d g te)).1 := by
  unfold commitArtist
  set p1 := add_artist s (mkArtistData env d g te) with hp1
  dsimp only
  split
  · rw [artistNames_synthesize]
    unfold artistNames
    rw [commitTracks_artists]
  · unfold artistNames
    rw [commitTracks_artists]

/-- Exhaustive case analysis of one `process_artist` call: it either
returns `none` leaving everything unchanged, returns the cached dataframe
row leaving everything unchanged, or commits via `commitArtist` with the
canonical Deezer name and the non-empty tag list. -/
theorem process_artist_cases (env : Env) (s : Store) (df : List ArtistRec)
    (session : List String) (n : String) :
    process_artist env s df session n = ⟨none, s, session⟩ ∨
    (∃ a, df.find? (fun a => pyLower a.name == normName n) = some a ∧
      process_artist env s df session n = ⟨some (.cached a), s, session⟩) ∨
    (∃ d g gs, env.deezer n = some d ∧
      (get_lastfm_tags env d.name).1 = g :: gs ∧
      process_artist env s df session n =
        commitArtist env s session d g (get_lastfm_tags env d.name).2) := by
  by_cases h1 : normName n ∈ session
  · left; simp [process_artist, h1]
  · cases h2 : df.find? (fun a => pyLower a.name == normName n) with
    | some a =>
        right; left
        refine ⟨a, rfl, ?_⟩
        simp [process_artist, h1, h2]
    | none =>
      cases h3 : env.deezer n with
      | none => left; simp [process_artist, h1, h2, h3]
      | some d =>
        by_cases h4 : normName d.name ∈ session
        · left; simp [process_artist, h1, h2, h3, h4]
        · cases h5 : (get_lastfm_tags env d.name).1 with
          | nil => left; simp [process_artist, h1, h2, h3, h4, h5]
          | cons g gs =>
              right; right
              refine ⟨d, g, gs, rfl, h5, ?_⟩
              simp [process_artist, h1, h2, h3, h4, h5]

/-- A name that is stored can be found by exact-name lookup. -/
theorem findArtistByName_isSome_of_name (s : Store) (nm : String)
    (h : nm ∈ artistNames s) : ∃ b, findArtistByName s nm = some b := by
  unfold artistNames at h
  obtain ⟨a, ha, rfl⟩ := List.mem_map.mp h
  have hs : (s.artists.find? (fun b => b.name == a.name)).isSome = true := by
    rw [List.find?_isSome]
    exact ⟨a, ha, by simp⟩
  obtain ⟨b, hb⟩ := Option.isSome_iff_exists.mp hs
  exact ⟨b, hb⟩

/-- Re-resolving against a store that already holds exactly one
case-insensitive match for the canonical name — stored under the exact
canonical spelling — never changes the stored name list: every branch of
`process_artist` either leaves the store alone or takes `add_artist`'s
update branch. -/
theorem process_artist_preserves_names (env : Env) (s : Store)
    (df : List ArtistRec) (session : List String) (n : String)
    (info : DeezerInfo) (l1 : String)
    (hd2 : env.deezer n = some info)
    (hs : ∀ nm ∈ artistNames s,
      pairPred l1 (pyLower info.name) nm = true → nm = info.name)
    (hc : (artistNames s).countP (pairPred l1 (pyLower info.name)) = 1) :
    artistNames (process_artist env s df session n).store = artistNames s := by
  rcases process_artist_cases env s df session n with hA | ⟨a, _, hA⟩ |
    ⟨d, g, gs, hd, hg, hA⟩
  · rw [hA]
  · rw [hA]
  · rw [hA, artistNames_commitArtist]
    obtain rfl : d = info := Option.some.inj (hd ▸ hd2)
    have hpos : 0 < (artistNames s).countP (pairPred l1 (pyLower d.name)) :=
      hc ▸ Nat.one_pos
    obtain ⟨nm, hmem, hp⟩ := List.countP_pos_iff.mp hpos
    have hnm := hs nm hmem hp
    obtain ⟨b, hb⟩ := findArtistByName_isSome_of_name s nm hmem
    rw [hnm] at hb
    exact artistNames_add_artist_some s _ b hb

/-! ### C5 -/

/-- C5 (amended): with no session/dataframe short-circuit in play,
resolution fails outright iff the catalog lookup finds no match OR the tag
lookup yields an empty tag list (a failed tag request produces the empty
list together with the 0.5 default, and `process_artist` then aborts).
The mood provider is universally quantified inside `env`, so a degraded
mood lookup never affects success. -/
theorem process_artist_failure_iff (env : Env) (s : Store) (n : String) :
    ((process_artist env s [] [] n).res = none) ↔
      (env.deezer n = none ∨
        ∃ d, env.deezer n = some d ∧ (get_lastfm_tags env d.name).1 = []) := by
  cases hd : env.deezer n with
  | none => simp [process_artist, hd]
  | some d =>
    cases ht : (get_lastfm_tags env d.name).1 with
    | nil => simp [process_artist, hd, ht]
    | cons g gs => simp [process_artist, hd, ht, commitArtist]

/-- Counterexample to C5 as stated: the catalog lookup succeeds
(`deezer` returns a match) while the tag lookup fails; the claim says
resolution must still succeed with the 0.5 default, but `process_artist`
returns `None` and stores nothing. -/
theorem process_artist_tag_failure_cex :
    envTagFail.deezer "Portishead" = some ⟨"Portishead", 7, 1000, "img"⟩ ∧
    (process_artist envTagFail ⟨[], [], 1⟩ [] [] "Portishead").res = none ∧
    (process_artist envTagFail ⟨[], [], 1⟩ [] [] "Portishead").store =
      ⟨[], [], 1⟩ :=
  ⟨rfl, rfl, rfl⟩

/-! ### C3 -/

/-- `commitArtist` for a brand-new artist none of whose previews is
analyzable: the inserted row keeps every `avg_*` column NULL, the tracks
table is unchanged, and the `(0, tag_energy)` fallback goes only into the
returned UI dict. -/
theorem commitArtist_no_audio (env : Env) (s : Store)
    (session : List String) (d : DeezerInfo) (g : String) (te : ℚ)
    (h6 : findArtistByName s d.name = none)
    (h7 : ∀ t ∈ env.topTracks d.id, env.analyze t.preview = none) :
    commitArtist env s session d g te =
      ⟨some (.fresh (mkArtistData env d g te) 0 te),
       ⟨s.artists ++ [freshArtistRec s (mkArtistData env d g te)],
        s.tracks, s.nextId + 1⟩,
       session ++ [normName d.name]⟩ := by
  have h6' : findArtistByName s (mkArtistData env d g te).artist = none := h6
  have hadd : add_artist s (mkArtistData env d g te) =
      ({ s with
          artists := s.artists ++ [freshArtistRec s (mkArtistData env d g te)],
          nextId := s.nextId + 1 }, s.nextId) := by
    unfold add_artist
    rw [h6']
  have hfold := commitTracks_all_fail env s.nextId (env.topTracks d.id)
    ({ s with
        artists := s.artists ++ [freshArtistRec s (mkArtistData env d g te)],
        nextId := s.nextId + 1 }) h7
  have hfilter : (env.topTracks d.id).filter
      (fun t => (env.analyze t.preview).isSome) = [] := by
    rw [List.filter_eq_nil_iff]
    intro t ht
    simp [h7 t ht]
  unfold commitArtist
  dsimp only
  rw [hadd]
  dsimp only
  rw [hfold, hfilter]
  dsimp only [List.length_nil]
  rw [if_neg (lt_irrefl 0)]
  cases hL : (env.topTracks d.id).getLast? with
  | none => rfl
  | some tlk =>
      dsimp only
      rw [h7 tlk (mem_of_getLast?_eq_some hL)]

/-- C3 (amended): when resolution succeeds for a brand-new artist but zero
previews are analyzable, nothing composite is persisted at all — the
freshly inserted row has `avg_brightness = NULL` and `avg_bpm = NULL`
(not the tag-energy fallback / 0 the claim asserts); the fallback pair
`(Audio_BPM = 0, Audio_Brightness = tag_energy)` appears only in the
in-memory dict returned for the UI. -/
theorem process_artist_zero_tracks_not_persisted (env : Env) (s : Store)
    (df : List ArtistRec) (session : List String) (n : String)
    (d : DeezerInfo)
    (h1 : normName n ∉ session)
    (h2 : df.find? (fun a => pyLower a.name == normName n) = none)
    (h3 : env.deezer n = some d)
    (h4 : normName d.name ∉ session)
    (h5 : (get_lastfm_tags env d.name).1 ≠ [])
    (h6 : findArtistByName s d.name = none)
    (h7 : ∀ t ∈ env.topTracks d.id, env.analyze t.preview = none) :
    (process_artist env s df session n).store.artists =
      s.artists ++ [freshArtistRec s
        (mkArtistData env d ((get_lastfm_tags env d.name).1.headI)
          (get_lastfm_tags env d.name).2)] ∧
    (freshArtistRec s
        (mkArtistData env d ((get_lastfm_tags env d.name).1.headI)
          (get_lastfm_tags env d.name).2)).avg_brightness = none ∧
    (freshArtistRec s
        (mkArtistData env d ((get_lastfm_tags env d.name).1.headI)
          (get_lastfm_tags env d.name).2)).avg_bpm = none ∧
    (process_artist env s df session n).store.tracks = s.tracks ∧
    (process_artist env s df session n).res =
      some (.fresh
        (mkArtistData env d ((get_lastfm_tags env d.name).1.headI)
          (get_lastfm_tags env d.name).2)
        0 (get_lastfm_tags env d.name).2) := by
  obtain ⟨g, gs, hg⟩ := List.exists_cons_of_ne_nil h5
  have hrun : process_artist env s df session n =
      commitArtist env s session d g (get_lastfm_tags env d.name).2 := by
    simp [process_artist, h1, h2, h3, h4, hg]
  rw [hrun, commitArtist_no_audio env s session d g _ h6 h7, hg]
  exact ⟨rfl, rfl, rfl, rfl, rfl⟩

/-- Witness for the amended C3 at a concrete zero-preview resolution. -/
theorem process_artist_zero_tracks_not_persisted_witness :
    (get_lastfm_tags envNoTracks "Portishead").1 ≠ [] ∧
    findArtistByName ⟨[], [], 1⟩ "Portishead" = none ∧
    envNoTracks.topTracks 7 = [] ∧
    (process_artist envNoTracks ⟨[], [], 1⟩ [] [] "Portishead").store.tracks
      = [] :=
  ⟨by decide, rfl, rfl,
    (process_artist_zero_tracks_not_persisted envNoTracks ⟨[], [], 1⟩ [] []
      "Portishead" ⟨"Portishead", 7, 1000, "img"⟩
      (by decide) rfl rfl (by decide) (by decide) rfl
      (fun t ht => absurd ht (List.not_mem_nil t))).2.2.2.1⟩

/-- Counterexample to C3 as stated: a successfully resolved artist with
zero analyzable previews is persisted with `avg_brightness = NULL` and
`avg_bpm = NULL`; the claim's "persisted composite brightness equals the
fallback tag-energy score and persisted composite BPM equals 0" is false
on this store. -/
theorem process_artist_zero_tracks_cex :
    (process_artist envNoTracks ⟨[], [], 1⟩ [] [] "Portishead").store.artists.headI.avg_brightness
        = none ∧
    (process_artist envNoTracks ⟨[], [], 1⟩ [] [] "Portishead").store.artists.headI.avg_bpm
        = none ∧
    (process_artist envNoTracks ⟨[], [], 1⟩ [] [] "Portishead").store.artists.length = 1 ∧
    (process_artist envNoTracks ⟨[], [], 1⟩ [] [] "Portishead").store.artists.headI.avg_brightness
        ≠ some
          ((process_artist envNoTracks ⟨[], [], 1⟩ [] [] "Portishead").store.artists.headI.tag_energy) ∧
    (process_artist envNoTracks ⟨[], [], 1⟩ [] [] "Portishead").store.artists.headI.avg_bpm
        ≠ some 0 :=
  ⟨rfl, rfl, rfl, by decide, by decide⟩

/-! ### Helper lemmas for the similarity engine -/

/-- Population variances are non-negative. -/
theorem colVar_nonneg (df : List KnnRow) (j : Fin 6) : 0 ≤ colVar df j := by
  unfold colVar
  refine div_nonneg (List.sum_nonneg fun x hx => ?_) (Nat.cast_nonneg _)
  obtain ⟨r, _, rfl⟩ := List.mem_map.mp hx
  positivity

/-- The per-column scaling denominator is positive. -/
theorem scaleDenom_pos (df : List KnnRow) (j : Fin 6) :
    0 < scaleDenom df j := by
  unfold scaleDenom
  split
  · exact one_pos
  · exact (colVar_nonneg df j).lt_of_ne (Ne.symm (by assumption))

/-- Scaled squared distances are non-negative. -/
theorem scaledDist2_nonneg (df : List KnnRow) (a b : KnnRow) :
    0 ≤ scaledDist2 df a b :=
  Finset.sum_nonneg fun j _ =>
    div_nonneg (sq_nonneg _) (scaleDenom_pos df j).le

/-- Equal feature vectors are at scaled distance zero. -/
theorem scaledDist2_eq_zero_of_eq (df : List KnnRow) {a b : KnnRow}
    (h : featVec a = featVec b) : scaledDist2 df a b = 0 :=
  Finset.sum_eq_zero fun j _ => by rw [h]; simp

/-- Two dataframe rows with different feature vectors are at strictly
positive scaled distance. -/
theorem scaledDist2_pos_of_ne (df : List KnnRow) {a b : KnnRow}
    (h : featVec a ≠ featVec b) : 0 < scaledDist2 df a b := by
  obtain ⟨j, hj⟩ := Function.ne_iff.mp h
  refine Finset.sum_pos' (fun i _ =>
    div_nonneg (sq_nonneg _) (scaleDenom_pos df i).le)
    ⟨j, Finset.mem_univ j, div_pos ?_ (scaleDenom_pos df j)⟩
  have hsub : featVec a j - featVec b j ≠ 0 := sub_ne_zero.mpr hj
  positivity

/-- `knnLe` is reflexive. -/
theorem knnLe_refl (df : List KnnRow) (q : KnnRow) (i : ℕ) :
    knnLe df q i i := Or.inr ⟨rfl, le_refl i⟩

/-- `knnLe` is total. -/
theorem knnLe_total (df : List KnnRow) (q : KnnRow) (i j : ℕ) :
    knnLe df q i j ∨ knnLe df q j i := by
  rcases lt_trichotomy (scaledDist2 df q (rowAt df i))
    (scaledDist2 df q (rowAt df j)) with h | h | h
  · exact Or.inl (Or.inl h)
  · rcases Nat.le_total i j with hn | hn
    · exact Or.inl (Or.inr ⟨h, hn⟩)
    · exact Or.inr (Or.inr ⟨h.symm, hn⟩)
  · exact Or.inr (Or.inl h)

/-- `knnLe` is transitive. -/
theorem knnLe_trans (df : List KnnRow) (q : KnnRow) (i j k : ℕ)
    (h1 : knnLe df q i j) (h2 : knnLe df q j k) : knnLe df q i k := by
  rcases h1 with h1 | ⟨h1e, h1n⟩ <;> rcases h2 with h2 | ⟨h2e, h2n⟩
  · exact Or.inl (h1.trans h2)
  · exact Or.inl (h2e ▸ h1)
  · exact Or.inl (h1e ▸ h2)
  · exact Or.inr ⟨h1e.trans h2e, h1n.trans h2n⟩

/-- `knnLe` yields non-decreasing distances. -/
theorem knnLe_dist_le (df : List KnnRow) (q : KnnRow) {i j : ℕ}
    (h : knnLe df q i j) :
    scaledDist2 df q (rowAt df i) ≤ scaledDist2 df q (rowAt df j) := by
  rcases h with h | ⟨h, _⟩
  · exact h.le
  · exact h.le

/-- If `m` is the unique `r`-lower bound of its own lower set, the sorted
list starts with `m`. -/
theorem insertionSort_head_unique_min (r : ℕ → ℕ → Prop) [DecidableRel r]
    [IsTotal ℕ r] [IsTrans ℕ r] (l : List ℕ) (m : ℕ) (hm : m ∈ l)
    (huniq : ∀ j ∈ l, r j m → j = m) :
    ∃ tl, List.insertionSort r l = m :: tl := by
  cases hs : List.insertionSort r l with
  | nil =>
      have hperm := List.perm_insertionSort r l
      rw [hs] at hperm
      exact absurd (hperm.symm.subset hm) (List.not_mem_nil m)
  | cons h tl =>
      have hperm := List.perm_insertionSort r l
      have hsorted := List.sorted_insertionSort r l
      rw [hs] at hperm hsorted
      have hhl : h ∈ l := hperm.subset (List.mem_cons_self h tl)
      by_cases hhm : h = m
      · refine ⟨tl, ?_⟩
        rw [← hhm]
      · have hmtl : m ∈ tl := by
          rcases List.mem_cons.mp (hperm.symm.subset hm) with h1 | h1
          · exact absurd h1.symm hhm
          · exact h1
        have hr : r h m := (List.sorted_cons.mp hsorted).1 m hmtl
        exact absurd (huniq h hhl hr) hhm

/-! ### C4 -/

/-- C4 (amended): the artist-level k-NN query returns an empty result when
the corpus holds fewer than 5 artists, returns at most `k` rows, ordered
by non-decreasing scaled distance to the query row (`scaledDist2` is the
square of the distance scikit-learn sorts by, and squaring is monotone);
and — provided no *other* row carries a feature vector identical to the
query row's, and names are unique — it never returns the query artist
itself.  (Without the distinctness proviso the claim fails: see the
counterexample, where a duplicate feature vector pushes the query row
itself into the result.) -/
theorem get_ai_neighbors_spec (center : String) (df : List KnnRow)
    (k t : ℕ) (hlen : ¬ df.length < 5)
    (ht : df.findIdx? (fun r => r.artist == center) = some t) :
    (∀ df0 : List KnnRow, df0.length < 5 → get_ai_neighbors center df0 k = []) ∧
    (get_ai_neighbors center df k).length ≤ k ∧
    List.Pairwise (fun a b =>
      scaledDist2 df (rowAt df t) a ≤ scaledDist2 df (rowAt df t) b)
      (get_ai_neighbors center df k) ∧
    ((∀ j, j < df.length → j ≠ t →
        featVec (rowAt df j) ≠ featVec (rowAt df t)) →
      (df.map (fun r => r.artist)).Nodup →
      center ∉ (get_ai_neighbors center df k).map (fun r => r.artist)) := by
  haveI : IsTotal ℕ (knnLe df (rowAt df t)) := ⟨knnLe_total df (rowAt df t)⟩
  haveI : IsTrans ℕ (knnLe df (rowAt df t)) :=
    ⟨fun a b c => knnLe_trans df (rowAt df t) a b c⟩
  have hrun : get_ai_neighbors center df k =
      ((List.insertionSort (knnLe df (rowAt df t))
        (List.range df.length)).take (min (k + 1) df.length)).tail.map
        (rowAt df) := by
    unfold get_ai_neighbors
    rw [if_neg hlen, ht]
  have htlt : t < df.length :=
    (List.findIdx?_eq_some_iff_findIdx_eq.mp ht).1
  have hperm := List.perm_insertionSort (knnLe df (rowAt df t))
    (List.range df.length)
  have hsorted := List.sorted_insertionSort (knnLe df (rowAt df t))
    (List.range df.length)
  refine ⟨fun df0 h0 => by unfold get_ai_neighbors; rw [if_pos h0], ?_, ?_, ?_⟩
  · rw [hrun]
    simp only [List.length_map, List.length_tail, List.length_take,
      List.length_insertionSort, List.length_range]
    omega
  · rw [hrun, List.pairwise_map]
    refine List.Pairwise.imp (fun h => knnLe_dist_le df (rowAt df t) h) ?_
    exact hsorted.sublist
      ((List.tail_sublist _).trans (List.take_sublist _ _))
  · intro hdist hnodup hmem
    rw [hrun] at hmem
    -- the query index is the unique minimum, hence the dropped head
    have huniq : ∀ j ∈ List.range df.length,
        knnLe df (rowAt df t) j t → j = t := by
      intro j hj hr
      by_contra hne
      have hjlt : j < df.length := List.mem_range.mp hj
      have hpos : 0 < scaledDist2 df (rowAt df t) (rowAt df j) :=
        scaledDist2_pos_of_ne df (fun he => hdist j hjlt hne he.symm)
      have hzero : scaledDist2 df (rowAt df t) (rowAt df t) = 0 :=
        scaledDist2_eq_zero_of_eq df rfl
      rcases hr with hlt | ⟨heq, _⟩
      · rw [hzero] at hlt
        exact absurd hlt (not_lt.mpr (scaledDist2_nonneg df _ _))
      · rw [hzero] at heq
        exact absurd heq (ne_of_gt hpos)
    obtain ⟨tl, hs⟩ := insertionSort_head_unique_min
      (knnLe df (rowAt df t)) (List.range df.length) t
      (List.mem_range.mpr htlt) huniq
    rw [hs] at hmem hperm
    have hnodupS : (t :: tl).Nodup :=
      (hperm.nodup_iff).mpr (List.nodup_range _)
    have httl : t ∉ tl := (List.nodup_cons.mp hnodupS).1
    obtain ⟨m1, hmin⟩ : ∃ m1, min (k + 1) df.length = m1 + 1 := by
      refine ⟨min (k + 1) df.length - 1, ?_⟩
      omega
    rw [hmin, List.take_succ_cons, List.tail_cons] at hmem
    obtain ⟨r0, hr0, hname⟩ := List.mem_map.mp hmem
    obtain ⟨i, hi, rfl⟩ := List.mem_map.mp hr0
    have hitl : i ∈ tl := List.take_subset _ _ hi
    have hine : i ≠ t := fun he => httl (he ▸ hitl)
    have hilt : i < df.length := List.mem_range.mp
      (hperm.subset (List.mem_cons_of_mem _ hitl))
    have hcname : (rowAt df t).artist = center := by
      obtain ⟨hlt2, hp, _⟩ := List.findIdx?_eq_some_iff_getElem.mp ht
      rw [rowAt, List.getD_eq_getElem df default hlt2]
      simpa using hp
    have hnames : (rowAt df i).artist = (rowAt df t).artist := by
      rw [hname, hcname]
    have hilen : i < (df.map (fun r => r.artist)).length := by
      simpa using hilt
    have htlen : t < (df.map (fun r => r.artist)).length := by
      simpa using htlt
    have hgi : (df.map (fun r => r.artist))[i] = (rowAt df i).artist := by
      rw [List.getElem_map, rowAt, List.getD_eq_getElem df default hilt]
    have hgt : (df.map (fun r => r.artist))[t] = (rowAt df t).artist := by
      rw [List.getElem_map, rowAt, List.getD_eq_getElem df default htlt]
    have hij : (df.map (fun r => r.artist))[i] =
        (df.map (fun r => r.artist))[t] := by
      rw [hgi, hgt, hnames]
    exact hine (hnodup.getElem_inj_iff.mp hij)

/-- Witness for the amended C4 on a concrete 5-row corpus, querying
"C". -/
theorem get_ai_neighbors_spec_witness :
    ¬ dfDup.length < 5 ∧
    dfDup.findIdx? (fun r => r.artist == "C") = some 2 ∧
    ((∀ df0 : List KnnRow, df0.length < 5 →
        get_ai_neighbors "C" df0 5 = []) ∧
     (get_ai_neighbors "C" dfDup 5).length ≤ 5 ∧
     List.Pairwise (fun a b =>
       scaledDist2 dfDup (rowAt dfDup 2) a ≤ scaledDist2 dfDup (rowAt dfDup 2) b)
       (get_ai_neighbors "C" dfDup 5) ∧
     ((∀ j, j < dfDup.length → j ≠ 2 →
         featVec (rowAt dfDup j) ≠ featVec (rowAt dfDup 2)) →
       (dfDup.map (fun r => r.artist)).Nodup →
       "C" ∉ (get_ai_neighbors "C" dfDup 5).map (fun r => r.artist))) :=
  ⟨by decide, rfl, get_ai_neighbors_spec "C" dfDup 5 2 (by decide) rfl⟩

/-- Counterexample to C4 as stated: with two artists sharing one feature
vector ("A" at row 0 and "B" at row 1), querying the neighbors of "B"
returns "B" itself — the code drops only the first reported index,
assuming it is the query row, but the tie at distance zero puts "A"
first. -/
theorem get_ai_neighbors_returns_query_cex :
    "B" ∈ (get_ai_neighbors "B" dfDup 5).map (fun r => r.artist) := by
  haveI : IsTotal ℕ (knnLe dfDup (rowAt dfDup 1)) :=
    ⟨knnLe_total dfDup (rowAt dfDup 1)⟩
  haveI : IsTrans ℕ (knnLe dfDup (rowAt dfDup 1)) :=
    ⟨fun a b c => knnLe_trans dfDup (rowAt dfDup 1) a b c⟩
  have h01 : featVec (rowAt dfDup 1) = featVec (rowAt dfDup 0) := by
    funext j
    fin_cases j <;> rfl
  have hzero : scaledDist2 dfDup (rowAt dfDup 1) (rowAt dfDup 0) = 0 :=
    scaledDist2_eq_zero_of_eq dfDup h01
  have huniq : ∀ j ∈ List.range dfDup.length,
      knnLe dfDup (rowAt dfDup 1) j 0 → j = 0 := by
    intro j _ hr
    rcases hr with hlt | ⟨_, hle⟩
    · rw [hzero] at hlt
      exact absurd hlt (not_lt.mpr (scaledDist2_nonneg dfDup _ _))
    · omega
  obtain ⟨tl, hs⟩ := insertionSort_head_unique_min
    (knnLe dfDup (rowAt dfDup 1)) (List.range dfDup.length) 0
    (by decide) huniq
  have hperm := List.perm_insertionSort (knnLe dfDup (rowAt dfDup 1))
    (List.range dfDup.length)
  rw [hs] at hperm
  have hlen : (0 :: tl).length = 5 := hperm.length_eq
  have h1mem : (1 : ℕ) ∈ 0 :: tl := hperm.mem_iff.mpr (by decide)
  have h1tl : (1 : ℕ) ∈ tl := by
    rcases List.mem_cons.mp h1mem with h | h
    · exact absurd h one_ne_zero
    · exact h
  have hrun : get_ai_neighbors "B" dfDup 5 =
      ((List.insertionSort (knnLe dfDup (rowAt dfDup 1))
        (List.range dfDup.length)).take
          (min (5 + 1) dfDup.length)).tail.map (rowAt dfDup) := by
    unfold get_ai_neighbors
    rw [if_neg (by decide), show dfDup.findIdx?
      (fun r => r.artist == "B") = some 1 from rfl]
  rw [hrun, hs]
  rw [show min (5 + 1) dfDup.length = 5 from rfl]
  rw [List.take_of_length_le (by rw [hlen])]
  rw [List.tail_cons]
  exact List.mem_map.mpr ⟨rowAt dfDup 1,
    List.mem_map.mpr ⟨1, h1tl, rfl⟩, rfl⟩

/-! ### Helper lemmas for the crawler scheduler -/

/-- Everything one crawl candidate loop guarantees: the trace grows by a
suffix of candidate events, each started within budget; the quota counter
advances by exactly the number of events whose processing returned a
name; the page counter is untouched; the quota never exceeds 2. -/
theorem candLoop_spec (henv : HarvestEnv) (budget : ℕ) :
    ∀ (cands : List String) (st : SchedState), ∃ Δ : List HEvent,
      (candLoop henv budget cands st).trace = st.trace ++ Δ ∧
      (candLoop henv budget cands st).added =
        st.added + Δ.countP HEvent.counted ∧
      (candLoop henv budget cands st).pages = st.pages ∧
      (∀ ev ∈ Δ, ev.start ≤ budget) ∧
      (st.added ≤ 2 → (candLoop henv budget cands st).added ≤ 2) := by
  intro cands
  induction cands with
  | nil =>
      intro st
      refine ⟨[], by simp [candLoop], by simp [candLoop],
        by simp [candLoop], by simp, fun h => by simpa [candLoop] using h⟩
  | cons c rest ih =>
      intro st
      unfold candLoop
      by_cases h1 : budget < st.now
      · rw [if_pos h1]
        exact ⟨[], by simp, by simp, by simp, by simp, fun h => h⟩
      · rw [if_neg h1]
        by_cases h2 : 2 ≤ st.added
        · rw [if_pos h2]
          exact ⟨[], by simp, by simp, by simp, by simp, fun h => h⟩
        · rw [if_neg h2]
          obtain ⟨Δ, ht, ha, hp, hb, hq⟩ := ih _
          refine ⟨.cand c st.now
            (process_artist_and_commit henv.api st.store st.existing c).1
              :: Δ, ?_, ?_, ?_, ?_, ?_⟩
          · rw [ht]
            simp
          · rw [ha]
            simp only [List.countP_cons, HEvent.counted]
            ring
          · rw [hp]
          · intro ev hev
            rcases List.mem_cons.mp hev with rfl | hev
            · exact not_lt.mp h1
            · exact hb ev hev
          · intro _
            refine hq ?_
            dsimp only
            have h3 : st.added ≤ 1 := by omega
            split <;> omega

/-- One seed expansion (`pageLoop`) fetches at most `fuel` further pages,
grows the trace by within-budget events, counts exactly the events whose
processing returned a name, and never pushes the quota past 2. -/
theorem pageLoop_spec (henv : HarvestEnv) (budget : ℕ) (seed : String) :
    ∀ (fuel page : ℕ) (st : SchedState), ∃ Δ : List HEvent,
      (pageLoop henv budget seed fuel page st).trace = st.trace ++ Δ ∧
      (pageLoop henv budget seed fuel page st).added =
        st.added + Δ.countP HEvent.counted ∧
      (pageLoop henv budget seed fuel page st).pages ≤ st.pages + fuel ∧
      (∀ ev ∈ Δ, ev.start ≤ budget) ∧
      (st.added ≤ 2 → (pageLoop henv budget seed fuel page st).added ≤ 2) := by
  intro fuel
  induction fuel with
  | zero =>
      intro page st
      exact ⟨[], by simp [pageLoop], by simp [pageLoop],
        by simp [pageLoop], by simp, fun h => by simpa [pageLoop] using h⟩
  | succ fuel ih =>
      intro page st
      unfold pageLoop
      by_cases h2 : 2 ≤ st.added
      · rw [if_pos h2]
        exact ⟨[], by simp, by simp, by omega, by simp, fun h => h⟩
      · rw [if_neg h2]
        by_cases hc : henv.neighbors seed page = []
        · rw [if_pos hc]
          refine ⟨[], by simp, by simp, ?_, by simp, fun _ => ?_⟩
          · dsimp only
            omega
          · dsimp only
            omega
        · rw [if_neg hc]
          obtain ⟨Δ1, ht1, ha1, hp1, hb1, hq1⟩ :=
            candLoop_spec henv budget (henv.neighbors seed page) _
          obtain ⟨Δ2, ht2, ha2, hp2, hb2, hq2⟩ := ih (page + 1) _
          refine ⟨Δ1 ++ Δ2, ?_, ?_, ?_, ?_, ?_⟩
          · rw [ht2, ht1]
            simp
          · rw [ha2, ha1, List.countP_append]
            dsimp only
            omega
          · rw [hp1] at hp2
            dsimp only at hp2
            omega
          · intro ev hev
            rcases List.mem_append.mp hev with h | h
            · exact hb1 ev h
            · exact hb2 ev h
          · intro _
            refine hq2 (hq1 ?_)
            dsimp only
            omega

/-- Every recorded seed or candidate start in a crawl run happened while
the elapsed time was still within budget. -/
theorem seedLoop_spec (henv : HarvestEnv) (budget : ℕ) :
    ∀ (seeds : List String) (st : SchedState), ∃ Δ : List HEvent,
      (seedLoop henv budget seeds st).trace = st.trace ++ Δ ∧
      (∀ ev ∈ Δ, ev.start ≤ budget) := by
  intro seeds
  induction seeds with
  | nil => intro st; exact ⟨[], by simp [seedLoop], by simp⟩
  | cons sd rest ih =>
      intro st
      unfold seedLoop
      by_cases h1 : budget < st.now
      · rw [if_pos h1]
        exact ⟨[], by simp, by simp⟩
      · rw [if_neg h1]
        obtain ⟨Δ1, ht1, _, _, hb1, _⟩ := pageLoop_spec henv budget sd 3 1
          { st with
            added := 0, pages := 0,
            trace := st.trace ++ [.seed sd st.now] }
        obtain ⟨Δ2, ht2, hb2⟩ := ih _
        refine ⟨.seed sd st.now :: (Δ1 ++ Δ2), ?_, ?_⟩
        · rw [ht2, ht1]
          simp
        · intro ev hev
          rcases List.mem_cons.mp hev with rfl | hev
          · exact not_lt.mp h1
          · rcases List.mem_append.mp hev with h | h
            · exact hb1 ev h
            · exact hb2 ev h

/-! ### C8 -/

/-- C8: the crawler checks its wall-clock budget before each seed and
before each candidate, so every seed scan and every candidate processing
recorded in the trace started at elapsed time ≤ budget — nothing starts
after the budget is exceeded; and with a budget of 0 seconds (the store
fetch taking any positive time), the run starts no seed and no candidate
at all: the trace is empty. -/
theorem harvest_budget_checks (henv : HarvestEnv) (budget : ℕ)
    (seeds : List String) (s0 : Store) :
    (∀ ev ∈ (runScheduler henv budget seeds s0).trace, ev.start ≤ budget) ∧
    (budget = 0 → 1 ≤ henv.initDur →
      (runScheduler henv budget seeds s0).trace = []) := by
  constructor
  · intro ev hev
    obtain ⟨Δ, ht, hb⟩ := seedLoop_spec henv budget seeds
      { store := s0,
        existing := s0.artists.map (fun a => pyLower a.name),
        added := 0, pages := 0,
        now := henv.initDur,
        trace := [] }
    unfold runScheduler at hev
    rw [ht] at hev
    simp only [List.nil_append] at hev
    exact hb ev hev
  · intro hb0 hinit
    subst hb0
    cases seeds with
    | nil => rfl
    | cons sd rest =>
        unfold runScheduler seedLoop
        rw [if_pos]
        exact hinit

/-- Witness for C8: with a 1-tick store fetch and budget 0, the concrete
crawl run records no seed scan and no candidate. -/
theorem harvest_budget_checks_witness :
    (0 : ℕ) = 0 ∧ 1 ≤ envHarvest.initDur ∧
    (runScheduler envHarvest 0 ["Seed"] storeKnown).trace = [] :=
  ⟨rfl, by decide,
    (harvest_budget_checks envHarvest 0 ["Seed"] storeKnown).2 rfl (by decide)⟩

/-! ### C7 -/

/-- C7 (amended): for each seed the crawler fetches at most 3 pages of
similar-artist candidates and stops expanding once the per-seed quota of
2 is reached; the quota counts exactly the candidates whose processing
returned a canonical name — which includes candidates that were *already
known* (case-insensitively), since the exists-skip path of
`process_artist_and_commit` also returns the name.  (The original
"only newly added artists count" is refuted by the counterexample.) -/
theorem expand_seed_quota (henv : HarvestEnv) (budget : ℕ) (seed : String)
    (st : SchedState) (h0 : st.added = 0) :
    (pageLoop henv budget seed 3 1 st).pages ≤ st.pages + 3 ∧
    (pageLoop henv budget seed 3 1 st).added ≤ 2 ∧
    (∃ Δ : List HEvent,
      (pageLoop henv budget seed 3 1 st).trace = st.trace ++ Δ ∧
      (pageLoop henv budget seed 3 1 st).added =
        Δ.countP HEvent.counted) := by
  obtain ⟨Δ, ht, ha, hpg, hb, hq⟩ := pageLoop_spec henv budget seed 3 1 st
  refine ⟨hpg, hq (by omega), Δ, ht, ?_⟩
  rw [ha, h0]
  omega

/-- Witness for the amended C7 at a concrete seed expansion. -/
theorem expand_seed_quota_witness :
    (⟨storeKnown, ["knowna", "knownb"], 0, 0, 1, []⟩ : SchedState).added = 0 ∧
    ((pageLoop envHarvest 1000 "Seed" 3 1
        ⟨storeKnown, ["knowna", "knownb"], 0, 0, 1, []⟩).pages ≤
      (⟨storeKnown, ["knowna", "knownb"], 0, 0, 1, []⟩ : SchedState).pages + 3 ∧
    (pageLoop envHarvest 1000 "Seed" 3 1
        ⟨storeKnown, ["knowna", "knownb"], 0, 0, 1, []⟩).added ≤ 2 ∧
    (∃ Δ : List HEvent,
      (pageLoop envHarvest 1000 "Seed" 3 1
          ⟨storeKnown, ["knowna", "knownb"], 0, 0, 1, []⟩).trace =
        (⟨storeKnown, ["knowna", "knownb"], 0, 0, 1, []⟩ : SchedState).trace
          ++ Δ ∧
      (pageLoop envHarvest 1000 "Seed" 3 1
          ⟨storeKnown, ["knowna", "knownb"], 0, 0, 1, []⟩).added =
        Δ.countP HEvent.counted)) :=
  ⟨rfl, expand_seed_quota envHarvest 1000 "Seed"
    ⟨storeKnown, ["knowna", "knownb"], 0, 0, 1, []⟩ rfl⟩

/-- Counterexample to C7 as stated: with ample budget, seed "Seed" offers
candidates "KnownA", "KnownB" (both already stored) and "Fresh" (new and
resolvable).  The run stores nothing new, yet its trace shows both known
candidates were processed with a returned name — filling the per-seed
quota of 2 — and "Fresh" was never attempted, even though processing it
would have succeeded.  Hence already-known candidates do count toward the
quota. -/
theorem harvest_known_candidates_fill_quota_cex :
    (runScheduler envHarvest 1000 ["Seed"] storeKnown).store = storeKnown ∧
    (runScheduler envHarvest 1000 ["Seed"] storeKnown).trace =
      [.seed "Seed" 1, .cand "KnownA" 2 (some "KnownA"),
       .cand "KnownB" 3 (some "KnownB")] ∧
    (process_artist_and_commit envHarvest.api storeKnown
      ["knowna", "knownb"] "Fresh").1 = some "Fresh" :=
  ⟨rfl, rfl, rfl⟩

/-! ### C1 -/

/-- C1: resolving the same artist name twice (in any casing — captured by
the catalog provider answering both spellings with the same canonical
record) leaves exactly one stored record whose name case-insensitively
matches the queried or canonical name, and the second resolution never
inserts a row (it either short-circuits or takes `add_artist`'s update
branch).  The store-side hypotheses say the initial store is itself free
of case-duplicates for this name and only ever stores the canonical
spelling — the invariant every resolution-produced store satisfies. -/
theorem process_artist_twice_one_record (env : Env) (s0 : Store)
    (S1 S2 : List String) (df2 : List ArtistRec) (n1 n2 : String)
    (info : DeezerInfo)
    (hdz : env.deezer n1 = env.deezer n2)
    (hinfo : env.deezer n1 = some info)
    (hsane : ∀ a ∈ s0.artists,
      pairPred (normName n1) (pyLower info.name) a.name = true →
        a.name = info.name)
    (hcount : countPair s0 (normName n1) (pyLower info.name) ≤ 1)
    (hfirst : (process_artist env s0 s0.artists S1 n1).res ≠ none) :
    countPair (process_artist env
        (process_artist env s0 s0.artists S1 n1).store df2 S2 n2).store
      (normName n1) (pyLower info.name) = 1 ∧
    (process_artist env
        (process_artist env s0 s0.artists S1 n1).store df2 S2
        n2).store.artists.length =
      (process_artist env s0 s0.artists S1 n1).store.artists.length := by
  have hd2 : env.deezer n2 = some info := hdz ▸ hinfo
  have hsaneN : ∀ nm ∈ artistNames s0,
      pairPred (normName n1) (pyLower info.name) nm = true →
        nm = info.name := by
    intro nm hm hp
    obtain ⟨a, ha, rfl⟩ := List.mem_map.mp hm
    exact hsane a ha hp
  -- Step 1: after the first (successful) call the store holds exactly one
  -- matching record, stored under the canonical spelling.
  have key1 : (∀ nm ∈ artistNames
        (process_artist env s0 s0.artists S1 n1).store,
      pairPred (normName n1) (pyLower info.name) nm = true →
        nm = info.name) ∧
      countPair (process_artist env s0 s0.artists S1 n1).store
        (normName n1) (pyLower info.name) = 1 := by
    rcases process_artist_cases env s0 s0.artists S1 n1 with hA |
      ⟨a, hfa, hA⟩ | ⟨d, g, gs, hd, hg, hA⟩
    · exact absurd (by rw [hA]) hfirst
    · rw [hA]
      have hma : a ∈ s0.artists := List.mem_of_find?_eq_some hfa
      have hpa : (pyLower a.name == normName n1) = true := by
        simpa using List.find?_some hfa
      have hP : pairPred (normName n1) (pyLower info.name) a.name = true := by
        simp [pairPred, hpa]
      have hpos : 0 < countPair s0 (normName n1) (pyLower info.name) :=
        List.countP_pos_iff.mpr
          ⟨a.name, List.mem_map_of_mem _ hma, hP⟩
      exact ⟨hsaneN, Nat.le_antisymm hcount hpos⟩
    · obtain rfl : d = info := Option.some.inj (hd ▸ hinfo)
      rw [hA]
      rw [show countPair (commitArtist env s0 S1 d g
          (get_lastfm_tags env d.name).2).store (normName n1) (pyLower d.name) =
          (artistNames (commitArtist env s0 S1 d g
            (get_lastfm_tags env d.name).2).store).countP
            (pairPred (normName n1) (pyLower d.name)) from rfl]
      rw [artistNames_commitArtist]
      cases hf : findArtistByName s0 (mkArtistData env d g
          (get_lastfm_tags env d.name).2).artist with
      | some b =>
          rw [artistNames_add_artist_some s0 _ b hf]
          have hmb : b ∈ s0.artists := List.mem_of_find?_eq_some hf
          have hbn : b.name = d.name := by
            simpa [mkArtistData] using List.find?_some hf
          have hP : pairPred (normName n1) (pyLower d.name) b.name = true := by
            simp [pairPred, hbn]
          have hpos : 0 < countPair s0 (normName n1) (pyLower d.name) :=
            List.countP_pos_iff.mpr
              ⟨b.name, List.mem_map_of_mem _ hmb, hP⟩
          exact ⟨hsaneN, Nat.le_antisymm hcount hpos⟩
      | none =>
          rw [artistNames_add_artist_none s0 _ hf]
          have hzero : (artistNames s0).countP
              (pairPred (normName n1) (pyLower d.name)) = 0 := by
            rw [List.countP_eq_zero]
            intro nm hm hp
            have hnm := hsaneN nm hm hp
            obtain ⟨a, ha, rfl⟩ := List.mem_map.mp hm
            have hcon : findArtistByName s0 d.name = none := hf
            unfold findArtistByName at hcon
            rw [List.find?_eq_none] at hcon
            have hfalse := hcon a ha
            simp [hnm] at hfalse
          constructor
          · intro nm hm hp
            rcases List.mem_append.mp hm with hm0 | hm1
            · exact hsaneN nm hm0 hp
            · simpa [mkArtistData] using hm1
          · rw [List.countP_append, hzero]
            simp [pairPred, mkArtistData]
  -- Step 2: the second call preserves the name list entirely.
  have key2 := process_artist_preserves_names env
    (process_artist env s0 s0.artists S1 n1).store df2 S2 n2 info
    (normName n1) hd2 key1.1 key1.2
  constructor
  · rw [show countPair (process_artist env
        (process_artist env s0 s0.artists S1 n1).store df2 S2 n2).store
        (normName n1) (pyLower info.name) =
        (artistNames (process_artist env
          (process_artist env s0 s0.artists S1 n1).store df2 S2 n2).store).countP
          (pairPred (normName n1) (pyLower info.name)) from rfl]
    rw [key2]
    exact key1.2
  · have hlen := congrArg List.length key2
    simpa [artistNames] using hlen

/-- Witness for C1: resolving "Portishead" then "PORTISHEAD" against an
empty store ends with exactly one stored record and no insert on the
second call. -/
theorem process_artist_twice_one_record_witness :
    envUpsert.deezer "Portishead" = envUpsert.deezer "PORTISHEAD" ∧
    envUpsert.deezer "Portishead" = some ⟨"Portishead", 7, 1000, "img"⟩ ∧
    (process_artist envUpsert ⟨[], [], 1⟩ [] [] "Portishead").res ≠ none ∧
    (countPair (process_artist envUpsert
        (process_artist envUpsert ⟨[], [], 1⟩ [] [] "Portishead").store
        [] [] "PORTISHEAD").store
      (normName "Portishead") (pyLower "Portishead") = 1 ∧
    (process_artist envUpsert
        (process_artist envUpsert ⟨[], [], 1⟩ [] [] "Portishead").store
        [] [] "PORTISHEAD").store.artists.length =
      (process_artist envUpsert ⟨[], [], 1⟩ [] []
        "Portishead").store.artists.length) := by
  refine ⟨rfl, rfl, by decide, ?_⟩
  exact process_artist_twice_one_record envUpsert ⟨[], [], 1⟩ [] [] []
    "Portishead" "PORTISHEAD" ⟨"Portishead", 7, 1000, "img"⟩ rfl rfl
    (by intro a ha _; exact absurd ha (List.not_mem_nil a))
    (by decide) (by decide)

end TuNerr
